import Mathlib

/-!
Shallow embedding of the SemanticATS frontend search component
(`ResumeSearch`) and, where the claims need it, the backend search
service as the specification describes it.  The frontend source is
TypeScript/React; its pure logic (request construction, response
handling, result rendering, saved-candidate bookkeeping) is translated
here into executable Lean definitions, with JavaScript truthiness and
string trimming modelled explicitly.
-/

namespace SemanticATS

/-- The `SearchMode` union type: `'story' | 'personality' | 'resume'`. -/
inductive SearchMode
  | story
  | personality
  | resume
deriving DecidableEq, Repr

/-- The mode string sent over the wire (the TS union members are string
literals, so `mode: mode` serializes to one of these strings). -/
def SearchMode.toWire : SearchMode → String
  | .story => "story"
  | .personality => "personality"
  | .resume => "resume"

/-- The `SearchResult` record type of the client:
`filename: string; score: number; story?: string; personality?: string;
rawText?: string`.  Optional fields are `Option String`; a field that is
present but holds the empty string is `some ""`. -/
structure SearchResult where
  filename : String
  score : ℚ
  story : Option String
  personality : Option String
  rawText : Option String
deriving DecidableEq, Repr

/-- JavaScript whitespace characters stripped by `String.prototype.trim`
(the ASCII ones; the source never feeds it exotic Unicode spaces). -/
def isJsWhitespace (c : Char) : Bool :=
  c == ' ' || c == '\t' || c == '\n' || c == '\r' || c == '\x0b' || c == '\x0c'

/-- JavaScript `String.prototype.trim`: strip whitespace from both ends. -/
def jsTrim (s : String) : String :=
  ⟨(((s.data.dropWhile isJsWhitespace).reverse.dropWhile isJsWhitespace).reverse)⟩

/-- Dropping again with the same predicate drops nothing new. -/
theorem dropWhile_dropWhile (p : Char → Bool) (l : List Char) :
    (l.dropWhile p).dropWhile p = l.dropWhile p := by
  induction l with
  | nil => rfl
  | cons a l ih =>
      by_cases h : p a
      · simpa [List.dropWhile, h] using ih
      · simp [List.dropWhile, h]

/-- The head of `dropWhile p l` never satisfies `p`. -/
theorem head_dropWhile_false (p : Char → Bool) (l : List Char) (a : Char)
    (h : a ∈ (l.dropWhile p).head?) : p a = false := by
  induction l with
  | nil => simp [List.dropWhile] at h
  | cons b l ih =>
      by_cases hb : p b
      · exact ih (by simpa [List.dropWhile, hb] using h)
      · simp [List.dropWhile, hb] at h
        simp [h] at hb
        simp [← h, Bool.not_eq_true] at hb ⊢
        exact hb

/-- If the head of `l` fails `p` then `dropWhile p l = l`. -/
theorem dropWhile_eq_self_of_head (p : Char → Bool) (l : List Char)
    (h : ∀ a ∈ l.head?, p a = false) : l.dropWhile p = l := by
  cases l with
  | nil => rfl
  | cons a l => simp [List.dropWhile, h a (by simp)]

/-- `dropWhile` yields a suffix of its argument. -/
theorem dropWhile_suffix (p : Char → Bool) (l : List Char) :
    l.dropWhile p <:+ l := by
  induction l with
  | nil => exact ⟨[], rfl⟩
  | cons a l ih =>
      by_cases h : p a
      · simpa [List.dropWhile, h] using ih.trans (List.suffix_cons a l)
      · simp [List.dropWhile, h]

/-- A nonempty prefix shares its head with the longer list. -/
theorem head_agrees_with_longer (l₁ l₂ : List Char) (h : l₁ <+: l₂) (a : Char)
    (ha : a ∈ l₁.head?) : a ∈ l₂.head? := by
  obtain ⟨u, hu⟩ := h
  cases l₁ with
  | nil => simp at ha
  | cons b t =>
      simp at ha
      rw [← hu, ha]
      simp

/-- Two-sided trimming on lists, the body of `jsTrim`. -/
def trimChars (p : Char → Bool) (l : List Char) : List Char :=
  ((l.dropWhile p).reverse.dropWhile p).reverse

/-- Two-sided list trimming is idempotent. -/
theorem trimChars_trimChars (p : Char → Bool) (l : List Char) :
    trimChars p (trimChars p l) = trimChars p l := by
  unfold trimChars
  have hleft :
      (((l.dropWhile p).reverse.dropWhile p).reverse).dropWhile p
        = ((l.dropWhile p).reverse.dropWhile p).reverse := by
    apply dropWhile_eq_self_of_head
    intro a ha
    have hpre : ((l.dropWhile p).reverse.dropWhile p).reverse <+: l.dropWhile p := by
      have hsuf := dropWhile_suffix p (l.dropWhile p).reverse
      have := List.reverse_prefix.mpr hsuf
      simpa using this
    exact head_dropWhile_false p l a (head_agrees_with_longer _ _ hpre a ha)
  rw [hleft, List.reverse_reverse, dropWhile_dropWhile]

/-- JavaScript trimming is idempotent. -/
theorem jsTrim_jsTrim (s : String) : jsTrim (jsTrim s) = jsTrim s := by
  show String.mk (trimChars isJsWhitespace (String.mk (trimChars isJsWhitespace s.data)).data)
      = String.mk (trimChars isJsWhitespace s.data)
  rw [show (String.mk (trimChars isJsWhitespace s.data)).data
        = trimChars isJsWhitespace s.data from rfl,
      trimChars_trimChars]

/-- A flat JSON value, enough for the search exchange. -/
inductive JsonVal
  | str : String → JsonVal
  | num : ℚ → JsonVal
deriving DecidableEq, Repr

/-- The request body the client builds and stringifies:
`const requestBody = { query: query.trim(), mode: mode }` — an object
with exactly the keys `query` and `mode`, in that order. -/
def requestJson (query : String) (mode : SearchMode) : List (String × JsonVal) :=
  [("query", JsonVal.str (jsTrim query)), ("mode", JsonVal.str mode.toWire)]

/-- Property lookup on a parsed JSON object (first binding wins, as in a
JS object literal read left to right). -/
def jLookup (o : List (String × JsonVal)) (k : String) : Option JsonVal :=
  (o.find? (fun p => p.1 == k)).map Prod.snd

/-- Read a property as a string; a missing or non-string property is
`undefined` to the client, i.e. `none` here. -/
def asStr (v : Option JsonVal) : Option String :=
  match v with
  | some (.str s) => some s
  | _ => none

/-- Read a property as a number; the client multiplies `result.score`
by 100 for display, so a missing property would surface as `NaN` — the
embedding defaults it to 0, which the claims never rely on. -/
def asNum (v : Option JsonVal) : ℚ :=
  match v with
  | some (.num q) => q
  | _ => 0

/-- The property names the client reads off each parsed result object
(the fields of the `SearchResult` type annotation). -/
def consumedResultFields : List String :=
  ["filename", "score", "story", "personality", "rawText"]

/-- How the client consumes one element of `data.results`: `JSON.parse`
performs no validation, and the `SearchResult` type ascription means the
component reads exactly the properties `filename`, `score`, `story`,
`personality` and `rawText` of the object. -/
def decodeSearchResult (o : List (String × JsonVal)) : SearchResult where
  filename := (asStr (jLookup o "filename")).getD ""
  score := asNum (jLookup o "score")
  story := asStr (jLookup o "story")
  personality := asStr (jLookup o "personality")
  rawText := asStr (jLookup o "rawText")

/-- The outcome of the `fetch` round trip as the client observes it. -/
inductive FetchOutcome
  /-- `response.ok` held and `JSON.parse` succeeded; `results` is the
  parsed body's `results` property, `none` when absent or null. -/
  | ok (results : Option (List SearchResult))
  /-- `response.ok` was false; the client throws
  `new Error(API Error: responseText)` and catches it itself. -/
  | httpError (responseText : String)
  /-- `fetch` or `JSON.parse` threw: `some msg` when the value was an
  `Error` with message `msg`, `none` for a non-Error throw. -/
  | exn (message : Option String)

/-- The component state touched by `searchResumes`. -/
structure SearchState where
  results : List SearchResult
  error : Option String
  loading : Bool
deriving Repr

/-- The request actually sent to `POST /search`. -/
structure SentRequest where
  query : String
  mode : SearchMode
deriving DecidableEq, Repr

/-- The `searchResumes` effect body: `setError(null)`; bail out on an
empty trimmed query with `setResults([])` and no fetch; otherwise
`setLoading(true)`, fetch with the trimmed query and current mode, then
either `setResults(data.results || [])`, or catch and set the error
message and `setResults([])`; `finally setLoading(false)`.  The network
is a function from the sent request to its outcome; the first component
records the request sent, `none` when no fetch was issued. -/
def searchResumes (query : String) (mode : SearchMode) (st : SearchState)
    (net : SentRequest → FetchOutcome) : Option SentRequest × SearchState :=
  let st := { st with error := none }
  if jsTrim query = "" then
    (none, { st with results := [] })
  else
    let req : SentRequest := { query := jsTrim query, mode := mode }
    let st := { st with loading := true }
    match net req with
    | .ok results =>
        (some req, { st with results := results.getD [], loading := false })
    | .httpError responseText =>
        (some req, { st with error := some ("API Error: " ++ responseText),
                             results := [], loading := false })
    | .exn message =>
        (some req, { st with error := some (message.getD "An unknown error occurred"),
                             results := [], loading := false })

/-- The error banner: rendered exactly when `error` is truthy
(`error && <div>…{error}…</div>`); a null or empty-string `error`
renders nothing. -/
def errorBanner (st : SearchState) : Option String :=
  match st.error with
  | some s => if s = "" then none else some s
  | none => none

/-- The `switch (mode)` in `renderResultContent` choosing the content
field: story mode reads `result.story`, personality mode
`result.personality`, resume mode `result.rawText`. -/
def modeContent (mode : SearchMode) (r : SearchResult) : Option String :=
  match mode with
  | .story => r.story
  | .personality => r.personality
  | .resume => r.rawText

/-- JavaScript truthiness of an optional string: `undefined` and the
empty string are falsy. -/
def strTruthy (o : Option String) : Bool :=
  match o with
  | some s => !(s == "")
  | none => false

/-- What `renderResultContent` puts on screen for one result. -/
structure RenderedContent where
  /-- The markdown text shown (`truncatedContent`). -/
  text : String
  /-- Whether the Show More / Show Less button is rendered
  (`content.length > 400 && <button …>`). -/
  showToggle : Bool
  /-- The button label, `Show Less` when expanded, `Show More` otherwise. -/
  toggleLabel : String
deriving DecidableEq, Repr

/-- `renderResultContent(result, index)`: pick the mode's field, return
null when it is falsy, else truncate to 400 characters with an ellipsis
unless expanded, and render the toggle button when the content exceeds
400 characters. -/
def renderResultContent (mode : SearchMode) (r : SearchResult)
    (index : ℕ) (expandedResults : List ℕ) : Option RenderedContent :=
  let isExpanded := index ∈ expandedResults
  match modeContent mode r with
  | none => none
  | some content =>
      if content = "" then none
      else some
        { text := if content.length > 400 ∧ ¬ isExpanded
              then (content.take 400).append "..."
              else content
          showToggle := content.length > 400
          toggleLabel := if isExpanded then "Show Less" else "Show More" }

/-- `toggleExpanded(index)`: flip membership of `index` in the
expanded-results set. -/
def toggleExpanded (expandedResults : List ℕ) (index : ℕ) : List ℕ :=
  if index ∈ expandedResults then expandedResults.filter (fun i => i ≠ index)
  else index :: expandedResults

/-- `saveCandidate(candidate)`: append unless some saved entry already
has the same filename. -/
def saveCandidate (savedCandidates : List SearchResult) (candidate : SearchResult) :
    List SearchResult :=
  if savedCandidates.any (fun saved => saved.filename == candidate.filename)
  then savedCandidates
  else savedCandidates ++ [candidate]

/-- `removeCandidate(filename)`: keep only entries whose filename
differs. -/
def removeCandidate (savedCandidates : List SearchResult) (filename : String) :
    List SearchResult :=
  savedCandidates.filter (fun candidate => candidate.filename != filename)

/-- One titled section of the details modal. -/
structure ModalSection where
  heading : String
  body : String
deriving DecidableEq, Repr

/-- A conditional section `field && <div><h3>…</h3>…{field}…</div>`:
rendered only when the field is truthy. -/
def modalSection (field : Option String) (heading : String) : List ModalSection :=
  match field with
  | some body => if body = "" then [] else [⟨heading, body⟩]
  | none => []

/-- The `Modal` component: null unless open with a candidate; otherwise
the candidate's filename heading and the three conditional sections, in
source order rawText, personality, story.  It renders purely from the
`candidate` prop — the search result already in hand — and issues no
request. -/
def Modal (isOpen : Bool) (candidate : Option SearchResult) :
    Option (String × List ModalSection) :=
  match isOpen, candidate with
  | true, some c =>
      some (c.filename,
        modalSection c.rawText "Resume + Story + Personality"
          ++ modalSection c.personality "Personality"
          ++ modalSection c.story "Story")
  | _, _ => none

/-- Modelled from the spec: the backend (`api.py` / `semantic_ats.py`)
is not among the provided sources, so the stored Candidate Record is
taken from the spec's data model — one point per candidate carrying a
payload and up to three independently-addressable named vectors
(`story_vector`, `personality_vector`, `resume_vector`), each present
only when the matching text field was extracted and embedded. -/
structure StoredPoint where
  id : String
  filename : String
  raw_text : Option String
  story_text : Option String
  personality_text : Option String
  story_vector : Option (List ℚ)
  personality_vector : Option (List ℚ)
  resume_vector : Option (List ℚ)
deriving DecidableEq, Repr

/-- Modelled from the spec: the mode-to-vector-name map of the Query
Router — story to `story_vector`, personality to `personality_vector`,
resume to `resume_vector`. -/
def namedVector (mode : SearchMode) (p : StoredPoint) : Option (List ℚ) :=
  match mode with
  | .story => p.story_vector
  | .personality => p.personality_vector
  | .resume => p.resume_vector

/-- Insert a scored point into a descending list, after every entry
scoring at least as high — so equal scores keep their original order. -/
def insertByScore (a : StoredPoint × ℚ) : List (StoredPoint × ℚ) → List (StoredPoint × ℚ)
  | [] => [a]
  | b :: l => if b.2 < a.2 then a :: b :: l else b :: insertByScore a l

/-- Stable descending sort by score: fold the scored points in
insertion order through `insertByScore`. -/
def sortByScore (l : List (StoredPoint × ℚ)) : List (StoredPoint × ℚ) :=
  l.foldl (fun acc a => insertByScore a acc) []

/-- Membership is preserved by scored insertion. -/
theorem mem_insertByScore (a x : StoredPoint × ℚ) (l : List (StoredPoint × ℚ)) :
    x ∈ insertByScore a l ↔ x = a ∨ x ∈ l := by
  induction l with
  | nil => simp [insertByScore]
  | cons b l ih =>
      by_cases h : b.2 < a.2
      · simp [insertByScore, h]
      · simp [insertByScore, h, ih]
        tauto

/-- Membership is preserved by the fold of scored insertions. -/
theorem mem_foldl_insertByScore (x : StoredPoint × ℚ)
    (l acc : List (StoredPoint × ℚ)) :
    x ∈ l.foldl (fun acc a => insertByScore a acc) acc ↔ x ∈ acc ∨ x ∈ l := by
  induction l generalizing acc with
  | nil => simp
  | cons a l ih =>
      simp only [List.foldl_cons, ih, mem_insertByScore, List.mem_cons]
      tauto

/-- Membership is preserved by the stable sort. -/
theorem mem_sortByScore (x : StoredPoint × ℚ) (l : List (StoredPoint × ℚ)) :
    x ∈ sortByScore l ↔ x ∈ l := by
  unfold sortByScore
  simp [mem_foldl_insertByScore]

/-- Modelled from the spec: the Vector Store Manager's `search` — it
compares the query vector only against the named vector selected by the
mode, across all points; points lacking that named vector are excluded,
never scored as zero; results are ordered by descending similarity with
ties broken stably by insertion order, then cut to the limit.  The
similarity function is a parameter (the spec fixes cosine normalized to
`[0,1]`, whose exact arithmetic no claim depends on). -/
def vectorSearch (sim : List ℚ → List ℚ → ℚ) (mode : SearchMode)
    (queryVector : List ℚ) (points : List StoredPoint) (limit : ℕ) :
    List (StoredPoint × ℚ) :=
  let scored := points.filterMap
    (fun p => (namedVector mode p).map (fun v => (p, sim queryVector v)))
  (sortByScore scored).take limit

/-- Modelled from the spec: the Query Router / Search Service — reject
an empty or whitespace-only query with zero results and no embedding
call, otherwise embed the query text and search the named vector
selected by the mode. -/
def searchService (sim : List ℚ → List ℚ → ℚ) (queryText : String)
    (mode : SearchMode) (embed : String → List ℚ)
    (points : List StoredPoint) (limit : ℕ) : List (StoredPoint × ℚ) :=
  if jsTrim queryText = "" then []
  else vectorSearch sim mode (embed queryText) points limit

/-- Every point a vector search returns carries the named vector the
mode selected. -/
theorem vectorSearch_mem_namedVector (sim : List ℚ → List ℚ → ℚ)
    (mode : SearchMode) (qv : List ℚ) (points : List StoredPoint)
    (limit : ℕ) (p : StoredPoint) (s : ℚ)
    (h : (p, s) ∈ vectorSearch sim mode qv points limit) :
    (namedVector mode p).isSome := by
  unfold vectorSearch at h
  have h1 := List.mem_of_mem_take h
  have h2 := (mem_sortByScore _ _).mp h1
  obtain ⟨q, hq, hmap⟩ := List.mem_filterMap.mp h2
  cases hv : namedVector mode q with
  | none => simp [hv] at hmap
  | some v =>
      simp [hv] at hmap
      rw [← hmap.1, hv]
      rfl

/-- Appending to a nonempty string stays nonempty. -/
theorem append_ne_empty_left (s t : String) (h : s ≠ "") : s ++ t ≠ "" := by
  intro he
  apply h
  have hd : s.data ++ t.data = [] := by
    have := congrArg String.data he
    simpa using this
  have : s.data = [] := (List.append_eq_nil.mp hd).1
  apply String.ext
  simpa using this

/-- C1: an empty or whitespace-only query, under any mode, yields an
empty result list, a cleared error, and no fetch (first component
`none`); and the spec-modelled server rejects it likewise, before any
embedding call, for every embedding function and index. -/
theorem empty_query_yields_nothing_without_calls
    (query : String) (mode : SearchMode) (st : SearchState)
    (net : SentRequest → FetchOutcome) (h : jsTrim query = "") :
    searchResumes query mode st net
        = (none, { results := [], error := none, loading := st.loading })
    ∧ (∀ (sim : List ℚ → List ℚ → ℚ) (embed : String → List ℚ)
        (points : List StoredPoint) (limit : ℕ),
        searchService sim query mode embed points limit = []) := by
  constructor
  · unfold searchResumes
    simp [h]
  · intro sim embed points limit
    unfold searchService
    simp [h]

/-- C1 witness: a whitespace-only query on a state holding stale results
and a stale error, against a network that would blow up if called. -/
theorem empty_query_yields_nothing_without_calls_witness :
    jsTrim "  " = ""
    ∧ searchResumes "  " SearchMode.story
        ⟨[⟨"x", 1, none, none, none⟩], some "old error", false⟩
        (fun _ => FetchOutcome.exn none)
      = (none, { results := [], error := none, loading := false }) :=
  ⟨rfl,
   (empty_query_yields_nothing_without_calls "  " SearchMode.story
      ⟨[⟨"x", 1, none, none, none⟩], some "old error", false⟩
      (fun _ => FetchOutcome.exn none) rfl).1⟩

/-- C2 counterexample: the client's request object carries the query
text under the key `query`, not `query_text` — the emitted keys are
exactly `query` and `mode`. -/
theorem request_key_is_query_not_query_text :
    (requestJson "engineer" SearchMode.story).map Prod.fst = ["query", "mode"]
    ∧ "query_text" ∉ (requestJson "engineer" SearchMode.story).map Prod.fst := by
  constructor
  · rfl
  · decide

/-- C2 amended: every request the client emits has exactly the keys
`query` and `mode`, and the client consumes exactly the result fields
`filename`, `score`, `story`, `personality`, `rawText` — two parsed
result objects agreeing on those five keys decode identically. -/
theorem request_and_result_shapes (query : String) (mode : SearchMode)
    (o₁ o₂ : List (String × JsonVal))
    (h : ∀ k ∈ consumedResultFields, jLookup o₁ k = jLookup o₂ k) :
    (requestJson query mode).map Prod.fst = ["query", "mode"]
    ∧ decodeSearchResult o₁ = decodeSearchResult o₂ := by
  refine ⟨rfl, ?_⟩
  have hf := h "filename" (by simp [consumedResultFields])
  have hs := h "score" (by simp [consumedResultFields])
  have hst := h "story" (by simp [consumedResultFields])
  have hp := h "personality" (by simp [consumedResultFields])
  have hr := h "rawText" (by simp [consumedResultFields])
  simp [decodeSearchResult, hf, hs, hst, hp, hr]

/-- C2 amended witness: a decoded result ignores an extra key the shape
does not mention. -/
theorem request_and_result_shapes_witness :
    (requestJson "engineer" SearchMode.personality).map Prod.fst = ["query", "mode"]
    ∧ decodeSearchResult [("filename", JsonVal.str "a.txt")]
        = decodeSearchResult
            [("filename", JsonVal.str "a.txt"), ("debug", JsonVal.num 3)] :=
  request_and_result_shapes "engineer" SearchMode.personality
    [("filename", JsonVal.str "a.txt")]
    [("filename", JsonVal.str "a.txt"), ("debug", JsonVal.num 3)]
    (by decide)

/-- C3: with a nonempty trimmed query, a failed request (non-ok response
or thrown exception) sets an error message and empties the result list,
while a successful request leaves the error cleared (so zero matches
render with no banner) — the two outcomes land in disjoint render
states. -/
theorem error_and_no_results_disjoint (query : String) (mode : SearchMode)
    (st : SearchState) (net : SentRequest → FetchOutcome)
    (hq : jsTrim query ≠ "") :
    (∀ t, net ⟨jsTrim query, mode⟩ = FetchOutcome.httpError t →
        (searchResumes query mode st net).2.error = some ("API Error: " ++ t)
        ∧ (searchResumes query mode st net).2.results = []
        ∧ errorBanner (searchResumes query mode st net).2
            = some ("API Error: " ++ t))
    ∧ (∀ msg, net ⟨jsTrim query, mode⟩ = FetchOutcome.exn msg →
        ((searchResumes query mode st net).2.error).isSome
        ∧ (searchResumes query mode st net).2.results = [])
    ∧ (∀ results, net ⟨jsTrim query, mode⟩ = FetchOutcome.ok results →
        (searchResumes query mode st net).2.error = none
        ∧ errorBanner (searchResumes query mode st net).2 = none
        ∧ (searchResumes query mode st net).2.results = results.getD []) := by
  refine ⟨?_, ?_, ?_⟩
  · intro t ht
    have hne : ("API Error: " ++ t) ≠ "" :=
      append_ne_empty_left "API Error: " t (by decide)
    simp [searchResumes, hq, ht, errorBanner, hne]
  · intro msg hmsg
    simp [searchResumes, hq, hmsg]
  · intro results hres
    simp [searchResumes, hq, hres, errorBanner]

/-- C3 witness: a failing network sets the banner and clears the list;
an ok-but-empty response clears both. -/
theorem error_and_no_results_disjoint_witness :
    ((searchResumes "q" SearchMode.resume ⟨[], none, false⟩
        (fun _ => FetchOutcome.httpError "boom")).2.error
      = some ("API Error: " ++ "boom"))
    ∧ (searchResumes "q" SearchMode.resume ⟨[], none, false⟩
        (fun _ => FetchOutcome.ok (some []))).2.error = none :=
  ⟨((error_and_no_results_disjoint "q" SearchMode.resume ⟨[], none, false⟩
      (fun _ => FetchOutcome.httpError "boom") (by decide)).1
      "boom" rfl).1,
   ((error_and_no_results_disjoint "q" SearchMode.resume ⟨[], none, false⟩
      (fun _ => FetchOutcome.ok (some [])) (by decide)).2.2
      (some []) rfl).1⟩

/-- C10: an ok response whose parsed body lacks a (truthy) `results`
field is treated as zero matches — the result list becomes empty and no
error is set. -/
theorem ok_response_without_results_field (query : String)
    (mode : SearchMode) (st : SearchState)
    (net : SentRequest → FetchOutcome) (hq : jsTrim query ≠ "")
    (hnet : net ⟨jsTrim query, mode⟩ = FetchOutcome.ok none) :
    (searchResumes query mode st net).2.results = []
    ∧ (searchResumes query mode st net).2.error = none := by
  simp [searchResumes, hq, hnet]

/-- C10 witness. -/
theorem ok_response_without_results_field_witness :
    (searchResumes "dev" SearchMode.story ⟨[⟨"x", 1, none, none, none⟩], some "e", true⟩
        (fun _ => FetchOutcome.ok none)).2.results = []
    ∧ (searchResumes "dev" SearchMode.story ⟨[⟨"x", 1, none, none, none⟩], some "e", true⟩
        (fun _ => FetchOutcome.ok none)).2.error = none :=
  ok_response_without_results_field "dev" SearchMode.story
    ⟨[⟨"x", 1, none, none, none⟩], some "e", true⟩
    (fun _ => FetchOutcome.ok none) (by decide) rfl

/-- C4: the body content shown for a result is the field selected by
the active mode — story mode reads the story field, personality mode
the personality field, resume mode the raw text — and an absent field
renders nothing. -/
theorem rendered_body_follows_mode (mode : SearchMode) (r : SearchResult)
    (index : ℕ) (expandedResults : List ℕ) :
    (modeContent SearchMode.story r = r.story
      ∧ modeContent SearchMode.personality r = r.personality
      ∧ modeContent SearchMode.resume r = r.rawText)
    ∧ (modeContent mode r = none →
        renderResultContent mode r index expandedResults = none)
    ∧ (∀ out, renderResultContent mode r index expandedResults = some out →
        ∃ c, modeContent mode r = some c ∧ c ≠ ""
          ∧ out.text = (if c.length > 400 ∧ index ∉ expandedResults
              then (c.take 400).append "..." else c)) := by
  refine ⟨⟨rfl, rfl, rfl⟩, ?_, ?_⟩
  · intro h
    simp [renderResultContent, h]
  · intro out hout
    unfold renderResultContent at hout
    cases hc : modeContent mode r with
    | none => rw [hc] at hout; simp at hout
    | some c =>
        rw [hc] at hout
        by_cases he : c = ""
        · simp [he] at hout
        · refine ⟨c, rfl, he, ?_⟩
          simp [he] at hout
          rw [← hout]

/-- C4 witness: a result with no story renders nothing in story mode,
and a result with a short story renders it verbatim. -/
theorem rendered_body_follows_mode_witness :
    renderResultContent SearchMode.story ⟨"a", 1, none, some "p", some "r"⟩ 0 [] = none
    ∧ ∃ c, modeContent SearchMode.personality ⟨"a", 1, none, some "p", some "r"⟩ = some c
        ∧ c ≠ ""
        ∧ RenderedContent.text ⟨"p", false, "Show More"⟩
            = (if c.length > 400 ∧ 0 ∉ ([] : List ℕ)
                then (c.take 400).append "..." else c) :=
  ⟨(rendered_body_follows_mode SearchMode.story ⟨"a", 1, none, some "p", some "r"⟩
      0 []).2.1 rfl,
   (rendered_body_follows_mode SearchMode.personality ⟨"a", 1, none, some "p", some "r"⟩
      0 []).2.2 ⟨"p", false, "Show More"⟩ rfl⟩

/-- C5: a request is sent only with a trimmed, nonempty query, and its
mode can only be one of story, personality, resume. -/
theorem sent_request_invariant (query : String) (mode : SearchMode)
    (st : SearchState) (net : SentRequest → FetchOutcome)
    (req : SentRequest) (st' : SearchState)
    (h : searchResumes query mode st net = (some req, st')) :
    jsTrim req.query = req.query ∧ req.query ≠ ""
    ∧ (req.mode = SearchMode.story ∨ req.mode = SearchMode.personality
        ∨ req.mode = SearchMode.resume) := by
  by_cases hq : jsTrim query = ""
  · simp [searchResumes, hq] at h
  · have hreq : req = ⟨jsTrim query, mode⟩ := by
      unfold searchResumes at h
      rw [if_neg hq] at h
      dsimp only at h
      cases hnet : net ⟨jsTrim query, mode⟩ <;> rw [hnet] at h <;>
        · injection h with h1 h2
          injection h1 with h1
          exact h1.symm
    subst hreq
    refine ⟨jsTrim_jsTrim query, hq, ?_⟩
    cases mode
    · exact Or.inl rfl
    · exact Or.inr (Or.inl rfl)
    · exact Or.inr (Or.inr rfl)

/-- C5 witness: a concrete send. -/
theorem sent_request_invariant_witness :
    jsTrim "dev" = "dev" ∧ "dev" ≠ ""
    ∧ (SearchMode.resume = SearchMode.story
        ∨ SearchMode.resume = SearchMode.personality
        ∨ SearchMode.resume = SearchMode.resume) :=
  sent_request_invariant " dev " SearchMode.resume ⟨[], none, false⟩
    (fun _ => FetchOutcome.ok none) ⟨"dev", SearchMode.resume⟩
    { results := [], error := none, loading := false } rfl

/-- C8: whenever the mode-selected content is longer than 400
characters, a body is rendered whose text is the first 400 characters
followed by an ellipsis when collapsed and the full content when
expanded, with the toggle button present; content of at most 400
characters renders in full with no toggle. -/
theorem truncation_and_toggle (mode : SearchMode) (r : SearchResult)
    (index : ℕ) (expandedResults : List ℕ) (c : String)
    (hc : modeContent mode r = some c) :
    (400 < c.length →
      ∃ out, renderResultContent mode r index expandedResults = some out
        ∧ (index ∉ expandedResults → out.text = (c.take 400).append "...")
        ∧ (index ∈ expandedResults → out.text = c)
        ∧ out.showToggle = true)
    ∧ (c.length ≤ 400 →
      ∀ out, renderResultContent mode r index expandedResults = some out →
        out.text = c ∧ out.showToggle = false) := by
  constructor
  · intro hlong
    have he : c ≠ "" := by
      intro h
      rw [h] at hlong
      simp at hlong
    have hout : renderResultContent mode r index expandedResults
        = some { text := if c.length > 400 ∧ ¬ index ∈ expandedResults
                    then (c.take 400).append "..." else c,
                 showToggle := c.length > 400,
                 toggleLabel := if index ∈ expandedResults
                    then "Show Less" else "Show More" } := by
      simp [renderResultContent, hc, he]
    refine ⟨_, hout, ?_, ?_, ?_⟩
    · intro hn
      simp [hlong, hn]
    · intro hmem
      simp [hmem]
    · simp [hlong]
  · intro hshort out hout
    unfold renderResultContent at hout
    rw [hc] at hout
    by_cases he : c = ""
    · simp [he] at hout
    · simp [he] at hout
      have hnot : ¬ 400 < c.length := by omega
      rw [← hout]
      simp [hnot]

/-- C8 witness: a 401-character story is cut to 400 characters plus an
ellipsis and gets a toggle. -/
theorem truncation_and_toggle_witness :
    ∃ out, renderResultContent SearchMode.story
        ⟨"a", 1, some (String.mk (List.replicate 401 'x')), none, none⟩ 0 [] = some out
      ∧ ((0 : ℕ) ∉ ([] : List ℕ) →
          out.text = ((String.mk (List.replicate 401 'x')).take 400).append "...")
      ∧ ((0 : ℕ) ∈ ([] : List ℕ) → out.text = String.mk (List.replicate 401 'x'))
      ∧ out.showToggle = true :=
  (truncation_and_toggle SearchMode.story
      ⟨"a", 1, some (String.mk (List.replicate 401 'x')), none, none⟩ 0 []
      (String.mk (List.replicate 401 'x')) rfl).1
    (by
      have h1 : (String.mk (List.replicate 401 'x')).length = 401 := by
        rw [show (String.mk (List.replicate 401 'x')).length
              = (List.replicate 401 'x').length from rfl, List.length_replicate]
      omega)

/-- Membership in a conditional modal section. -/
theorem mem_modalSection (field : Option String) (h : String) (s : ModalSection) :
    s ∈ modalSection field h ↔ ∃ t, field = some t ∧ t ≠ "" ∧ s = ⟨h, t⟩ := by
  cases field with
  | none => simp [modalSection]
  | some t =>
      by_cases ht : t = ""
      · simp [modalSection, ht]
      · simp [modalSection, ht]

/-- C6 counterexample: a candidate whose story field is present but
holds the empty string — the JS truthiness guard `candidate.story &&`
omits its section, so a present field is dropped, and the modal renders
no sections at all. -/
theorem present_empty_story_not_rendered :
    (SearchResult.story ⟨"a.txt", 1, some "", none, none⟩).isSome = true
    ∧ Modal true (some ⟨"a.txt", 1, some "", none, none⟩) = some ("a.txt", []) := by
  constructor
  · rfl
  · simp [Modal, modalSection]

/-- C6 amended: the modal renders purely from the already-fetched
result (no further request is modelled or needed), showing one titled
section per truthy text field — raw text, personality, story — where a
field that is absent, or present but empty, is omitted; every rendered
body is carried verbatim from the candidate's field. -/
theorem modal_renders_truthy_fields (c : SearchResult) :
    Modal false (some c) = none
    ∧ Modal true none = none
    ∧ ∃ sections, Modal true (some c) = some (c.filename, sections)
      ∧ ((∃ s ∈ sections, s.heading = "Resume + Story + Personality")
          ↔ strTruthy c.rawText = true)
      ∧ ((∃ s ∈ sections, s.heading = "Personality")
          ↔ strTruthy c.personality = true)
      ∧ ((∃ s ∈ sections, s.heading = "Story") ↔ strTruthy c.story = true)
      ∧ (∀ s ∈ sections,
          (s.heading = "Resume + Story + Personality" → c.rawText = some s.body)
          ∧ (s.heading = "Personality" → c.personality = some s.body)
          ∧ (s.heading = "Story" → c.story = some s.body)) := by
  refine ⟨rfl, rfl, _, rfl, ?_, ?_, ?_, ?_⟩
  · constructor
    · rintro ⟨s, hs, hh⟩
      rcases List.mem_append.mp hs with hs' | hs'
      rcases List.mem_append.mp hs' with hs'' | hs''
      · obtain ⟨t, ht, htne, rfl⟩ := (mem_modalSection _ _ _).mp hs''
        simp [strTruthy, ht, htne]
      · obtain ⟨t, ht, htne, rfl⟩ := (mem_modalSection _ _ _).mp hs''
        simp at hh
      · obtain ⟨t, ht, htne, rfl⟩ := (mem_modalSection _ _ _).mp hs'
        simp at hh
    · intro htr
      cases hrt : c.rawText with
      | none => rw [hrt] at htr; simp [strTruthy] at htr
      | some t =>
          rw [hrt] at htr
          have htne : t ≠ "" := by
            intro h; rw [h] at htr; simp [strTruthy] at htr
          exact ⟨⟨"Resume + Story + Personality", t⟩,
            List.mem_append.mpr (Or.inl (List.mem_append.mpr (Or.inl
              ((mem_modalSection _ _ _).mpr ⟨t, rfl, htne, rfl⟩)))), rfl⟩
  · constructor
    · rintro ⟨s, hs, hh⟩
      rcases List.mem_append.mp hs with hs' | hs'
      rcases List.mem_append.mp hs' with hs'' | hs''
      · obtain ⟨t, ht, htne, rfl⟩ := (mem_modalSection _ _ _).mp hs''
        simp at hh
      · obtain ⟨t, ht, htne, rfl⟩ := (mem_modalSection _ _ _).mp hs''
        simp [strTruthy, ht, htne]
      · obtain ⟨t, ht, htne, rfl⟩ := (mem_modalSection _ _ _).mp hs'
        simp at hh
    · intro htr
      cases hp : c.personality with
      | none => rw [hp] at htr; simp [strTruthy] at htr
      | some t =>
          rw [hp] at htr
          have htne : t ≠ "" := by
            intro h; rw [h] at htr; simp [strTruthy] at htr
          exact ⟨⟨"Personality", t⟩,
            List.mem_append.mpr (Or.inl (List.mem_append.mpr (Or.inr
              ((mem_modalSection _ _ _).mpr ⟨t, rfl, htne, rfl⟩)))), rfl⟩
  · constructor
    · rintro ⟨s, hs, hh⟩
      rcases List.mem_append.mp hs with hs' | hs'
      rcases List.mem_append.mp hs' with hs'' | hs''
      · obtain ⟨t, ht, htne, rfl⟩ := (mem_modalSection _ _ _).mp hs''
        simp at hh
      · obtain ⟨t, ht, htne, rfl⟩ := (mem_modalSection _ _ _).mp hs''
        simp at hh
      · obtain ⟨t, ht, htne, rfl⟩ := (mem_modalSection _ _ _).mp hs'
        simp [strTruthy, ht, htne]
    · intro htr
      cases hst : c.story with
      | none => rw [hst] at htr; simp [strTruthy] at htr
      | some t =>
          rw [hst] at htr
          have htne : t ≠ "" := by
            intro h; rw [h] at htr; simp [strTruthy] at htr
          exact ⟨⟨"Story", t⟩,
            List.mem_append.mpr (Or.inr
              ((mem_modalSection _ _ _).mpr ⟨t, rfl, htne, rfl⟩)), rfl⟩
  · intro s hs
    rcases List.mem_append.mp hs with hs' | hs'
    · rcases List.mem_append.mp hs' with hs'' | hs''
      · obtain ⟨t, ht, htne, rfl⟩ := (mem_modalSection _ _ _).mp hs''
        exact ⟨fun _ => ht, fun h => by simp at h, fun h => by simp at h⟩
      · obtain ⟨t, ht, htne, rfl⟩ := (mem_modalSection _ _ _).mp hs''
        exact ⟨fun h => by simp at h, fun _ => ht, fun h => by simp at h⟩
    · obtain ⟨t, ht, htne, rfl⟩ := (mem_modalSection _ _ _).mp hs'
      exact ⟨fun h => by simp at h, fun h => by simp at h, fun _ => ht⟩

/-- C6 amended witness: a closed modal renders nothing for a concrete
candidate. -/
theorem modal_renders_truthy_fields_witness :
    Modal false (some ⟨"a.txt", 1, some "s", some "p", some "r"⟩) = none :=
  (modal_renders_truthy_fields ⟨"a.txt", 1, some "s", some "p", some "r"⟩).1

/-- C7: a personality-mode query never returns a point lacking a
personality vector — search compares only against the mode's named
vector and excludes points without it. -/
theorem personality_mode_isolation (sim : List ℚ → List ℚ → ℚ)
    (queryText : String) (embed : String → List ℚ)
    (points : List StoredPoint) (limit : ℕ) (p : StoredPoint) (s : ℚ)
    (h : (p, s) ∈ searchService sim queryText SearchMode.personality
        embed points limit) :
    p.personality_vector.isSome := by
  unfold searchService at h
  by_cases hq : jsTrim queryText = ""
  · rw [if_pos hq] at h
    simp at h
  · rw [if_neg hq] at h
    have := vectorSearch_mem_namedVector sim SearchMode.personality
      (embed queryText) points limit p s h
    simpa [namedVector] using this

/-- C7 witness: a two-point index where only one point carries a
personality vector; a personality query returns exactly that point. -/
theorem personality_mode_isolation_witness :
    ((⟨"1", "a.txt", some "ra", none, some "pa", none, some [1], some [1]⟩, (1 : ℚ)) ∈
      searchService (fun _ _ => 1) "friendly" SearchMode.personality
        (fun _ => [1])
        [⟨"1", "a.txt", some "ra", none, some "pa", none, some [1], some [1]⟩,
         ⟨"2", "b.txt", some "rb", none, none, none, none, some [1]⟩] 10)
    ∧ (StoredPoint.personality_vector
        ⟨"1", "a.txt", some "ra", none, some "pa", none, some [1], some [1]⟩).isSome :=
  ⟨by decide,
   personality_mode_isolation (fun _ _ => 1) "friendly" (fun _ => [1])
     [⟨"1", "a.txt", some "ra", none, some "pa", none, some [1], some [1]⟩,
      ⟨"2", "b.txt", some "rb", none, none, none, none, some [1]⟩] 10
     ⟨"1", "a.txt", some "ra", none, some "pa", none, some [1], some [1]⟩ 1
     (by decide)⟩

/-- C9: the saved-candidates list keeps at most one entry per filename —
saving an already-saved filename is a no-op, removing a filename removes
every entry carrying it, and both operations preserve filename
uniqueness. -/
theorem saved_candidates_unique (savedCandidates : List SearchResult)
    (candidate : SearchResult) (filename : String)
    (h : (savedCandidates.map SearchResult.filename).Nodup) :
    (savedCandidates.any (fun saved => saved.filename == candidate.filename) = true →
        saveCandidate savedCandidates candidate = savedCandidates)
    ∧ (∀ x ∈ removeCandidate savedCandidates filename, x.filename ≠ filename)
    ∧ ((saveCandidate savedCandidates candidate).map SearchResult.filename).Nodup
    ∧ ((removeCandidate savedCandidates filename).map SearchResult.filename).Nodup := by
  refine ⟨?_, ?_, ?_, ?_⟩
  · intro ha
    simp [saveCandidate, ha]
  · intro x hx
    have := (List.mem_filter.mp hx).2
    simpa using this
  · by_cases ha : savedCandidates.any
        (fun saved => saved.filename == candidate.filename) = true
    · simp [saveCandidate, ha, h]
    · rw [saveCandidate, if_neg ha, List.map_append]
      refine List.Nodup.append h (List.nodup_singleton _) ?_
      intro a hmem hmem'
      simp at hmem'
      obtain ⟨x, hx, hxa⟩ := List.mem_map.mp hmem
      rw [List.any_eq_true] at ha
      exact ha ⟨x, hx, by simp [hxa, hmem']⟩
  · exact h.sublist (List.Sublist.map _ (List.filter_sublist _))

/-- C9 witness: a duplicate save is dropped and removal clears the
filename, on a concrete two-entry list. -/
theorem saved_candidates_unique_witness :
    (([⟨"a", 1, none, none, none⟩, ⟨"b", 2, none, none, none⟩] :
        List SearchResult).any
        (fun saved => saved.filename == "a") = true →
      saveCandidate [⟨"a", 1, none, none, none⟩, ⟨"b", 2, none, none, none⟩]
          ⟨"a", 1, none, none, none⟩
        = [⟨"a", 1, none, none, none⟩, ⟨"b", 2, none, none, none⟩])
    ∧ (∀ x ∈ removeCandidate
        [⟨"a", 1, none, none, none⟩, ⟨"b", 2, none, none, none⟩] "a",
        x.filename ≠ "a")
    ∧ ((saveCandidate [⟨"a", 1, none, none, none⟩, ⟨"b", 2, none, none, none⟩]
        ⟨"a", 1, none, none, none⟩).map SearchResult.filename).Nodup
    ∧ ((removeCandidate
        [⟨"a", 1, none, none, none⟩, ⟨"b", 2, none, none, none⟩]
        "a").map SearchResult.filename).Nodup :=
  saved_candidates_unique
    [⟨"a", 1, none, none, none⟩, ⟨"b", 2, none, none, none⟩]
    ⟨"a", 1, none, none, none⟩ "a" (by decide)

end SemanticATS
